import Mathlib

/-!
# Serverless-Cron: shallow embedding and verification

This development embeds the two Lambda handlers of the Serverless-Cron
repository and proves properties of them.

* `SC.handler` embeds `lambda/setter/index.js` (the current revision, the one
  that reads `WORKER_LAMBDA_ARN` / `SCHEDULER_GROUP_NAME` /
  `SCHEDULER_EXECUTION_ROLE_ARN` from `process.env`): it parses the request,
  checks the three required parameters for JS-truthiness, parses the fire
  time, builds a `CreateScheduleCommand` and sends it, mapping outcomes to
  HTTP status codes 200/400/500.
* `SC.workerHandler` embeds `lambda/worker/index.js`: it destructures
  `\x7burl, body\x7d` from the event, POSTs `JSON.stringify(body)` to `url`
  once via `fetch`, and maps the outcome to 200/400/500.

External collaborators (the `date-fns` functions `parseISO`/`formatISO`, the
AWS SDK `schedulerClient.send`, the global `fetch`, `Date.now()`, and
`process.env`) are modelled as explicit parameters in `SC.SetterEnv` /
the `fetchImpl` argument, since they are not code of this repository.
JS semantics that the handlers rely on are embedded explicitly:
truthiness (`SC.truthy`), `JSON.stringify` (`SC.Json.stringify`), string
coercion in template literals (`SC.jsToString`), destructuring of `null`
(a thrown `TypeError`, i.e. `Except.error`), and the decimal rendering of
`Date.now()` (`SC.natDecimal`).

Modelling notes: JSON numbers are modelled as `Int` (the claims only involve
integral values); `JSON.stringify`'s escaping covers quote and backslash
(control-character escapes are irrelevant to every claim); a response body is
kept as the `SC.Json` value passed to `JSON.stringify` rather than its
serialized string.
-/

namespace SC

/-- A JSON value, as produced by `JSON.parse` and consumed by
`JSON.stringify`. Numbers are modelled as integers. -/
inductive Json where
  | null
  | bool (b : Bool)
  | num (n : Int)
  | str (s : String)
  | arr (elems : List Json)
  | obj (fields : List (String × Json))

/-- JS truthiness of a JSON value: `null`, `false`, `0` and `""` are falsy;
arrays and objects are always truthy. -/
def truthy : Json → Bool
  | .null => false
  | .bool b => b
  | .num n => n != 0
  | .str s => s != ""
  | .arr _ => true
  | .obj _ => true

/-- Truthiness of a possibly-absent (`undefined`) value: `undefined` is falsy. -/
def truthyO : Option Json → Bool
  | none => false
  | some v => truthy v

/-- Property lookup in a JS object: a later binding for the same key shadows
an earlier one (as with duplicate keys in `JSON.parse` and object literals). -/
def jsLookup (fields : List (String × Json)) (k : String) : Option Json :=
  match fields with
  | [] => none
  | (k2, v) :: rest =>
    match jsLookup rest k with
    | some r => some r
    | none => if k2 = k then some v else none

/-- JS property access `v[k]` as used by destructuring: objects look the key
up, other non-null values yield `undefined`. (`null` is handled separately by
the callers, since destructuring `null` throws.) -/
def Json.getField : Json → String → Option Json
  | .obj fields, k => jsLookup fields k
  | _, _ => none

/-- The decimal digit `d` as a character (`0` ↦ `'0'`, …). -/
def digitChar (d : Nat) : Char := Char.ofNat (48 + d)

/-- Decimal digits of `n`, most significant first. -/
def natDigits (n : Nat) : List Char :=
  if _h : n < 10 then [digitChar n]
  else natDigits (n / 10) ++ [digitChar (n % 10)]
termination_by n
decreasing_by exact Nat.div_lt_self (by omega) (by omega)

/-- Decimal rendering of a natural number, as JS renders an integral
`Number` in a template literal or in `JSON.stringify`. -/
def natDecimal (n : Nat) : String := String.mk (natDigits n)

/-- Decimal rendering of an integer. -/
def intDecimal (i : Int) : String :=
  if i < 0 then "-" ++ natDecimal i.natAbs else natDecimal i.natAbs

/-- `JSON.stringify` escaping of one character (quote and backslash). -/
def jsonEscapeChar (c : Char) : String :=
  if c.toNat == 34 then "\\\"" else if c.toNat == 92 then "\\\\" else String.singleton c

/-- `JSON.stringify` escaping of a string. -/
def jsonEscape (s : String) : String :=
  String.join (s.toList.map jsonEscapeChar)

mutual

/-- `JSON.stringify` of a JSON value (compact form, no spacing). -/
def Json.stringify : Json → String
  | .null => "null"
  | .bool true => "true"
  | .bool false => "false"
  | .num n => intDecimal n
  | .str s => "\"" ++ jsonEscape s ++ "\""
  | .arr elems => "[" ++ stringifyElems elems ++ "]"
  | .obj fields => "\x7b" ++ stringifyFields fields ++ "\x7d"

/-- Comma-separated serialization of array elements. -/
def stringifyElems : List Json → String
  | [] => ""
  | [v] => Json.stringify v
  | v :: rest => Json.stringify v ++ "," ++ stringifyElems rest

/-- Comma-separated serialization of object fields. -/
def stringifyFields : List (String × Json) → String
  | [] => ""
  | [(k, v)] => "\"" ++ jsonEscape k ++ "\":" ++ Json.stringify v
  | (k, v) :: rest =>
    "\"" ++ jsonEscape k ++ "\":" ++ Json.stringify v ++ "," ++ stringifyFields rest

end

mutual

/-- JS `String(v)` coercion, as performed by a template literal
`\x7b...\x7d` interpolation and by `fetch` on its URL argument. -/
def jsToString : Json → String
  | .null => "null"
  | .bool true => "true"
  | .bool false => "false"
  | .num n => intDecimal n
  | .str s => s
  | .arr elems => jsToStringElems elems
  | .obj _ => "[object Object]"

/-- `Array.prototype.toString`: elements joined with commas. -/
def jsToStringElems : List Json → String
  | [] => ""
  | [v] => jsToString v
  | v :: rest => jsToString v ++ "," ++ jsToStringElems rest

end

/-! ## The setter handler (`lambda/setter/index.js`) -/

/-- The input of `CreateScheduleCommand` as built by the setter.
Field names follow the command's keys. -/
structure ScheduleCommand where
  name : String
  scheduleExpression : String
  scheduleExpressionTimezone : String
  flexibleTimeWindowMode : String
  targetArn : String
  targetRoleArn : String
  targetInput : String
  actionAfterCompletion : String
  commandState : String
  description : String
  groupName : String

/-- The fields of the `CreateSchedule` response that the setter reads
(`response.Name`, `response.ScheduleArn`); either may be absent. -/
structure SendResponse where
  name : Option String
  scheduleArn : Option String

/-- The setter's external collaborators and ambient state: the `date-fns`
functions, `Date.now()` at this invocation (milliseconds), the three
environment variables (a JS env var is a string or `undefined`), and
`schedulerClient.send`. -/
structure SetterEnv where
  parseISO : Json → Option Int
  formatISO : Int → String
  now : Nat
  workerLambdaArn : Option String
  schedulerGroupName : Option String
  schedulerExecutionRoleArn : Option String
  send : ScheduleCommand → Except String SendResponse

/-- The setter's invocation event: `bodyParsed` is the result of
`JSON.parse(event.body)` when that call succeeds, `none` when it throws
(absent body, non-string body, malformed JSON); `fields` are the event
object's own properties, used by the direct-invocation fallback. -/
structure SetterEvent where
  bodyParsed : Option Json
  fields : List (String × Json)

/-- A Lambda proxy response: status code plus the value whose JSON
serialization is the response body. -/
structure HandlerResult where
  statusCode : Nat
  body : Json

/-- One completed setter invocation: the response, and the
`CreateScheduleCommand` that was sent to the scheduler, if any. -/
structure SetterRun where
  result : HandlerResult
  sent : Option ScheduleCommand

/-- The request body the setter works on: the parsed `event.body` if
`JSON.parse` succeeded, otherwise the event object itself. -/
def requestOf (event : SetterEvent) : Json :=
  match event.bodyParsed with
  | some v => v
  | none => Json.obj event.fields

/-- JS truthiness of an environment variable (`undefined` and `""` are falsy). -/
def envTruthy : Option String → Bool
  | none => false
  | some s => s != ""

/-- `process.env.X || dflt`. -/
def envOrDefault (v : Option String) (dflt : String) : String :=
  match v with
  | some s => if s = "" then dflt else s
  | none => dflt

/-- The 400 response for a missing/falsy required parameter. -/
def missingParamsResult : HandlerResult :=
  ⟨400, .str "Missing required parameters in input (target_url, target_body, schedule_time_utc)"⟩

/-- The 500 response built by the setter's `catch` block from a thrown
error's message. -/
def errorResult (msg : String) : HandlerResult :=
  ⟨500, .str ("Error creating schedule: " ++ msg)⟩

/-- The 200 response body; `JSON.stringify` drops fields whose value is
`undefined`, so absent response fields are omitted. -/
def successBody (r : SendResponse) : Json :=
  Json.obj ([("message", Json.str "Schedule created successfully!")]
    ++ (match r.name with
        | some n => [("scheduleName", Json.str n)]
        | none => [])
    ++ (match r.scheduleArn with
        | some a => [("scheduleArn", Json.str a)]
        | none => []))

/-- The `CreateScheduleCommand` the setter builds for target url `u`, body
`b` and parsed fire time `t` (milliseconds). -/
def mkCommand (env : SetterEnv) (u b : Json) (t : Int) : ScheduleCommand :=
  { name := "oneTime-" ++ natDecimal env.now
    scheduleExpression := "at(" ++ ((env.formatISO t).take 19) ++ ")"
    scheduleExpressionTimezone := "UTC"
    flexibleTimeWindowMode := "OFF"
    targetArn := (env.workerLambdaArn).getD ""
    targetRoleArn := (env.schedulerExecutionRoleArn).getD ""
    targetInput := Json.stringify (Json.obj [("url", u), ("body", b)])
    actionAfterCompletion := "DELETE"
    commandState := "ENABLED"
    description := "One-time webhook call to " ++ jsToString u
    groupName := envOrDefault env.schedulerGroupName "default" }

/-- The setter's `try` block, entered with the three required parameters
already present and truthy: parse the time (`Invalid Date` throws), check
the two fatal environment variables, build and send the command; every
thrown error is caught and answered with a 500. -/
def tryBlock (env : SetterEnv) (u b s : Json) : SetterRun :=
  match env.parseISO s with
  | none =>
    ⟨errorResult "Invalid schedule_time_utc format. Please use ISO 8601, e.g., \"2025-12-31T23:59:59Z\" (offset also allowed).", none⟩
  | some t =>
    if envTruthy env.workerLambdaArn = false then
      ⟨errorResult "WORKER_LAMBDA_ARN environment variable not set. Deployment might be incomplete or misconfigured.", none⟩
    else if envTruthy env.schedulerExecutionRoleArn = false then
      ⟨errorResult "SCHEDULER_EXECUTION_ROLE_ARN environment variable not set. Deployment might be incomplete or misconfigured.", none⟩
    else
      match env.send (mkCommand env u b t) with
      | .error msg => ⟨errorResult msg, some (mkCommand env u b t)⟩
      | .ok r => ⟨⟨200, successBody r⟩, some (mkCommand env u b t)⟩

/-- The setter handler. `Except.error` models an exception escaping the
handler (destructuring a `null` request body throws a `TypeError` before
the `try` block starts). -/
def handler (env : SetterEnv) (event : SetterEvent) : Except String SetterRun :=
  match requestOf event with
  | .null => .error "TypeError: Cannot destructure property of null"
  | requestBody =>
    match requestBody.getField "target_url", requestBody.getField "target_body",
        requestBody.getField "schedule_time_utc" with
    | some target_url, some target_body, some schedule_time_utc =>
      if truthy target_url && truthy target_body && truthy schedule_time_utc then
        .ok (tryBlock env target_url target_body schedule_time_utc)
      else
        .ok ⟨missingParamsResult, none⟩
    | _, _, _ => .ok ⟨missingParamsResult, none⟩

/-- All three required parameters are present and truthy in request body `v`. -/
def validParams (v : Json) : Bool :=
  truthyO (v.getField "target_url") && truthyO (v.getField "target_body")
    && truthyO (v.getField "schedule_time_utc")

/-! ## The worker handler (`lambda/worker/index.js`) -/

/-- The observable part of a `fetch` response: HTTP status and the text of
the body (`response.text()`). -/
structure FetchResponse where
  status : Nat
  bodyText : String

/-- `response.ok`: status in the 2xx range. -/
def FetchResponse.ok (r : FetchResponse) : Bool := 200 ≤ r.status && r.status ≤ 299

/-- One outbound `fetch` call: URL, method, headers and serialized body. -/
structure FetchCall where
  url : String
  method : String
  headers : List (String × String)
  body : String

/-- The headers the worker sends. -/
def workerHeaders : List (String × String) :=
  [("Content-Type", "application/json"), ("X-Scheduler-Invocation", "true")]

/-- The single `fetch` call the worker performs for event fields `u`, `b`. -/
def mkFetchCall (u b : Json) : FetchCall :=
  ⟨jsToString u, "POST", workerHeaders, Json.stringify b⟩

/-- A worker response: status code plus the value whose JSON serialization
is the response body. -/
structure WorkerResult where
  statusCode : Nat
  body : Json

/-- The worker handler. It returns the ordered list of `fetch` calls it
performed together with its result; `Except.error` models an exception
escaping the handler (only destructuring a `null` event throws). -/
def workerHandler (fetchImpl : FetchCall → Except String FetchResponse)
    (event : Json) : Except String (List FetchCall × WorkerResult) :=
  match event with
  | .null => .error "TypeError: Cannot destructure property of null"
  | ev =>
    match ev.getField "url", ev.getField "body" with
    | some url, some body =>
      if truthy url && truthy body then
        match fetchImpl (mkFetchCall url body) with
        | .error msg =>
          .ok ([mkFetchCall url body],
            ⟨500, .str ("Error calling webhook: " ++ msg)⟩)
        | .ok r =>
          if r.ok then
            .ok ([mkFetchCall url body],
              ⟨200, Json.obj [("message", Json.str "Webhook called successfully"),
                ("statusCode", Json.num (Int.ofNat r.status)),
                ("responseBody", Json.str r.bodyText)]⟩)
          else
            .ok ([mkFetchCall url body],
              ⟨500, .str ("Error calling webhook: Webhook call failed with status "
                ++ natDecimal r.status ++ " and body: " ++ r.bodyText)⟩)
      else
        .ok ([], ⟨400, .str "Missing URL or body in payload"⟩)
    | _, _ => .ok ([], ⟨400, .str "Missing URL or body in payload"⟩)

/-! ## Decimal rendering: roundtrip and injectivity

The schedule name is `"oneTime-" ++ natDecimal now`; these lemmas show the
rendering is injective, so names agree exactly when the observed
`Date.now()` values agree. -/

/-- Decimal decoding of a digit string, with accumulator. -/
def decodeDigits (cs : List Char) (acc : Nat) : Nat :=
  match cs with
  | [] => acc
  | c :: rest => decodeDigits rest (acc * 10 + (c.toNat - 48))

theorem decodeDigits_append (xs ys : List Char) (acc : Nat) :
    decodeDigits (xs ++ ys) acc = decodeDigits ys (decodeDigits xs acc) := by
  induction xs generalizing acc with
  | nil => rfl
  | cons c rest ih => simp [decodeDigits, ih]

theorem digitChar_toNat (d : Nat) (h : d < 10) : (digitChar d).toNat = 48 + d := by
  interval_cases d <;> rfl

theorem decodeDigits_natDigits :
    ∀ n acc, decodeDigits (natDigits n) acc = acc * 10 ^ (natDigits n).length + n := by
  intro n
  induction n using Nat.strong_induction_on with
  | _ n ih =>
    intro acc
    by_cases h : n < 10
    · rw [natDigits]
      simp [h, decodeDigits, digitChar_toNat n h]
    · rw [natDigits]
      simp only [h, dite_false]
      rw [decodeDigits_append]
      have h10 : n % 10 < 10 := Nat.mod_lt _ (by omega)
      rw [ih (n / 10) (Nat.div_lt_self (by omega) (by omega)) acc]
      simp [decodeDigits, digitChar_toNat _ h10, pow_succ]
      have hdm := Nat.div_add_mod n 10
      set L := (natDigits (n / 10)).length
      ring_nf
      omega

theorem natDigits_injective : ∀ m n, natDigits m = natDigits n → m = n := by
  intro m n h
  have hm := decodeDigits_natDigits m 0
  have hn := decodeDigits_natDigits n 0
  rw [h] at hm
  omega

theorem natDecimal_injective : ∀ m n, natDecimal m = natDecimal n → m = n := by
  intro m n h
  exact natDigits_injective m n (congrArg String.data h)

theorem scheduleName_injective (m n : Nat)
    (h : "oneTime-" ++ natDecimal m = "oneTime-" ++ natDecimal n) : m = n := by
  apply natDecimal_injective
  have hd : ("oneTime-" ++ natDecimal m).data = ("oneTime-" ++ natDecimal n).data :=
    congrArg String.data h
  have hm : ("oneTime-" ++ natDecimal m).data = "oneTime-".data ++ (natDecimal m).data := rfl
  have hn : ("oneTime-" ++ natDecimal n).data = "oneTime-".data ++ (natDecimal n).data := rfl
  rw [hm, hn] at hd
  exact congrArg String.mk (List.append_cancel_left hd)

/-! ## Characterization lemmas for the setter -/

theorem truthyO_elim (o : Option Json) (h : truthyO o = true) :
    ∃ v, o = some v ∧ truthy v = true := by
  cases o <;> simp_all [truthyO]

theorem validParams_elim (v : Json) (h : validParams v = true) :
    ∃ u b s, v.getField "target_url" = some u ∧ truthy u = true ∧
      v.getField "target_body" = some b ∧ truthy b = true ∧
      v.getField "schedule_time_utc" = some s ∧ truthy s = true := by
  simp only [validParams, Bool.and_eq_true] at h
  obtain ⟨⟨h1, h2⟩, h3⟩ := h
  obtain ⟨u, hu, htu⟩ := truthyO_elim _ h1
  obtain ⟨b, hb, htb⟩ := truthyO_elim _ h2
  obtain ⟨s, hs, hts⟩ := truthyO_elim _ h3
  exact ⟨u, b, s, hu, htu, hb, htb, hs, hts⟩

/-- With the three required parameters present and truthy, the setter runs
its `try` block on them. -/
theorem handler_valid (env : SetterEnv) (event : SetterEvent) (u b s : Json)
    (hu : (requestOf event).getField "target_url" = some u)
    (hb : (requestOf event).getField "target_body" = some b)
    (hs : (requestOf event).getField "schedule_time_utc" = some s)
    (htu : truthy u = true) (htb : truthy b = true) (hts : truthy s = true) :
    handler env event = .ok (tryBlock env u b s) := by
  cases hreq : requestOf event <;> rw [hreq] at hu hb hs <;>
    simp_all [handler, Json.getField]

/-- With the request body not `null` and some required parameter missing or
falsy, the setter answers 400 without sending anything. -/
theorem handler_invalid (env : SetterEnv) (event : SetterEvent)
    (hne : requestOf event ≠ Json.null)
    (hv : validParams (requestOf event) = false) :
    handler env event = .ok ⟨missingParamsResult, none⟩ := by
  cases hreq : requestOf event <;> rw [hreq] at hv
  case null => exact absurd hreq hne
  case obj fs =>
    rcases h1 : jsLookup fs "target_url" with _ | u <;>
      rcases h2 : jsLookup fs "target_body" with _ | b <;>
        rcases h3 : jsLookup fs "schedule_time_utc" with _ | s <;>
          simp_all [handler, validParams, Json.getField, truthyO]
  all_goals simp_all [handler, validParams, Json.getField]

theorem tryBlock_parse_fail (env : SetterEnv) (u b s : Json)
    (hp : env.parseISO s = none) :
    tryBlock env u b s =
      ⟨errorResult "Invalid schedule_time_utc format. Please use ISO 8601, e.g., \"2025-12-31T23:59:59Z\" (offset also allowed).", none⟩ := by
  unfold tryBlock
  rw [hp]

theorem tryBlock_worker_missing (env : SetterEnv) (u b s : Json)
    (hw : envTruthy env.workerLambdaArn = false) :
    (tryBlock env u b s).result.statusCode = 500 ∧ (tryBlock env u b s).sent = none := by
  unfold tryBlock
  cases env.parseISO s <;> simp [hw, errorResult]

theorem tryBlock_role_missing (env : SetterEnv) (u b s : Json)
    (hw : envTruthy env.workerLambdaArn = true)
    (hr : envTruthy env.schedulerExecutionRoleArn = false) :
    (tryBlock env u b s).result.statusCode = 500 ∧ (tryBlock env u b s).sent = none := by
  unfold tryBlock
  cases env.parseISO s <;> simp [hw, hr, errorResult]

theorem tryBlock_sent_of (env : SetterEnv) (u b s : Json) (t : Int)
    (hp : env.parseISO s = some t)
    (hw : envTruthy env.workerLambdaArn = true)
    (hr : envTruthy env.schedulerExecutionRoleArn = true) :
    (tryBlock env u b s).sent = some (mkCommand env u b t) ∧
      (tryBlock env u b s).result.statusCode ≠ 400 := by
  unfold tryBlock
  rw [hp]
  rcases hsend : env.send (mkCommand env u b t) with msg | r <;>
    simp [hw, hr, hsend, errorResult]

theorem tryBlock_sent_eq (env : SetterEnv) (u b s : Json) (c : ScheduleCommand)
    (h : (tryBlock env u b s).sent = some c) :
    ∃ t, env.parseISO s = some t ∧ c = mkCommand env u b t := by
  unfold tryBlock at h
  split at h
  · simp at h
  · rename_i t hp
    split at h
    · simp at h
    · split at h
      · simp at h
      · split at h <;> simp_all

theorem tryBlock_status (env : SetterEnv) (u b s : Json) :
    (tryBlock env u b s).result.statusCode = 200 ∨
      (tryBlock env u b s).result.statusCode = 500 := by
  unfold tryBlock
  split
  · simp [errorResult]
  · split
    · simp [errorResult]
    · split
      · simp [errorResult]
      · split <;> simp [errorResult]

theorem tryBlock_200 (env : SetterEnv) (u b s : Json)
    (h : (tryBlock env u b s).result.statusCode = 200) :
    ∃ t r, env.parseISO s = some t ∧ env.send (mkCommand env u b t) = .ok r ∧
      tryBlock env u b s = ⟨⟨200, successBody r⟩, some (mkCommand env u b t)⟩ := by
  unfold tryBlock at h ⊢
  split at h
  · simp [errorResult] at h
  · rename_i t hp
    split at h
    · simp [errorResult] at h
    · split at h
      · simp [errorResult] at h
      · split at h
        · simp [errorResult] at h
        · rename_i r hr
          exact ⟨t, r, hp, hr, by simp_all⟩

/-- Any command the setter hands to `schedulerClient.send` is a
`mkCommand` for this invocation's environment. -/
theorem handler_sent_eq (env : SetterEnv) (event : SetterEvent) (run : SetterRun)
    (c : ScheduleCommand) (h : handler env event = .ok run) (hs : run.sent = some c) :
    ∃ u b t, c = mkCommand env u b t := by
  unfold handler at h
  split at h
  · simp at h
  · split at h
    · split at h
      · obtain rfl : _ = run := Except.ok.inj h
        obtain ⟨t, _, rfl⟩ := tryBlock_sent_eq env _ _ _ c hs
        exact ⟨_, _, t, rfl⟩
      · obtain rfl : _ = run := Except.ok.inj h
        simp at hs
    · obtain rfl : _ = run := Except.ok.inj h
      simp at hs

/-! ## Concrete fixtures

Concrete instantiations of the external collaborators, used to evaluate the
handlers on closed inputs: `parseISO0`/`formatISO0` behave as `date-fns`
does on the inputs that occur below (a valid RFC 3339 instant for
2030-01-01T00:00:00Z, `Invalid Date` otherwise), and `sendEcho` behaves as
the scheduler's `CreateSchedule` does on success (echoing name and ARN). -/

def parseISO0 : Json → Option Int := fun j =>
  match j with
  | .str "2030-01-01T00:00:00Z" => some 1893456000000
  | _ => none

def formatISO0 : Int → String := fun t =>
  if t = 1893456000000 then "2030-01-01T00:00:00+00:00" else "1970-01-01T00:00:00+00:00"

def sendEcho : ScheduleCommand → Except String SendResponse := fun c =>
  .ok ⟨some c.name, some ("arn:aws:scheduler:us-east-1:123456789012:schedule/default/" ++ c.name)⟩

def env0 : SetterEnv :=
  { parseISO := parseISO0
    formatISO := formatISO0
    now := 1735689600000
    workerLambdaArn := some "arn:aws:lambda:us-east-1:123456789012:function:WebhookWorker"
    schedulerGroupName := some "default"
    schedulerExecutionRoleArn := some "arn:aws:iam::123456789012:role/SchedulerExecutionRole"
    send := sendEcho }

/-- A direct-invocation event carrying the three scheduling parameters. -/
def directEvent (u b s : Json) : SetterEvent :=
  ⟨none, [("target_url", u), ("target_body", b), ("schedule_time_utc", s)]⟩

def eventA : SetterEvent :=
  directEvent (.str "https://example.com/hook") (.obj [("a", .num 1)])
    (.str "2030-01-01T00:00:00Z")

def eventB : SetterEvent :=
  directEvent (.str "https://example.org/other") (.obj [("b", .num 2)])
    (.str "2030-01-01T00:00:00Z")

/-- The status code of a setter invocation, `none` when an exception escaped. -/
def runStatus (r : Except String SetterRun) : Option Nat :=
  match r with
  | .ok run => some run.result.statusCode
  | .error _ => none

/-- The name of the schedule a setter invocation created, if any. -/
def sentName (r : Except String SetterRun) : Option String :=
  match r with
  | .ok run => run.sent.map (fun c => c.name)
  | .error _ => none

/-! ## Claims -/

/-- Counterexample to claim C1 as stated: two completed `Schedule()` calls
(both answered 200) that observe the same `Date.now()` millisecond —
here two distinct requests handled with the same clock reading — create
schedules with the same name, so the returned identifiers are not distinct. -/
theorem same_millisecond_calls_share_id :
    eventA ≠ eventB ∧
    runStatus (handler env0 eventA) = some 200 ∧
    runStatus (handler env0 eventB) = some 200 ∧
    sentName (handler env0 eventA) = some ("oneTime-" ++ natDecimal 1735689600000) ∧
    sentName (handler env0 eventB) = some ("oneTime-" ++ natDecimal 1735689600000) :=
  ⟨by simp [eventA, eventB, directEvent], rfl, rfl, rfl, rfl⟩

/-- Claim C1 (amended): the schedule name is `oneTime-` followed by the
decimal `Date.now()` value, so the identifiers of two completed calls are
distinct whenever the two calls observe distinct millisecond timestamps;
same-millisecond calls share a name (and uniqueness across all records ever
created is not guaranteed by the generation alone). -/
theorem schedule_ids_distinct_across_milliseconds :
    ∀ (env1 env2 : SetterEnv) (ev1 ev2 : SetterEvent) (n1 n2 : String),
      sentName (handler env1 ev1) = some n1 →
      sentName (handler env2 ev2) = some n2 →
      env1.now ≠ env2.now → n1 ≠ n2 := by
  intro env1 env2 ev1 ev2 n1 n2 h1 h2 hnow heq
  unfold sentName at h1 h2
  rcases hh1 : handler env1 ev1 with e1 | run1 <;> rw [hh1] at h1
  · simp at h1
  rcases hh2 : handler env2 ev2 with e2 | run2 <;> rw [hh2] at h2
  · simp at h2
  rw [Option.map_eq_some'] at h1 h2
  obtain ⟨c1, hc1, hn1⟩ := h1
  obtain ⟨c2, hc2, hn2⟩ := h2
  obtain ⟨u1, b1, t1, rfl⟩ := handler_sent_eq _ _ _ _ hh1 hc1
  obtain ⟨u2, b2, t2, rfl⟩ := handler_sent_eq _ _ _ _ hh2 hc2
  have g1 : "oneTime-" ++ natDecimal env1.now = n1 := hn1
  have g2 : "oneTime-" ++ natDecimal env2.now = n2 := hn2
  exact hnow (scheduleName_injective env1.now env2.now (g1.trans (heq.trans g2.symm)))

def env1w : SetterEnv := { env0 with now := 1000 }

def env2w : SetterEnv := { env0 with now := 2000 }

theorem schedule_ids_distinct_across_milliseconds_witness :
    sentName (handler env1w eventA) = some ("oneTime-" ++ natDecimal 1000) ∧
    sentName (handler env2w eventA) = some ("oneTime-" ++ natDecimal 2000) ∧
    env1w.now ≠ env2w.now ∧
    ("oneTime-" ++ natDecimal 1000) ≠ ("oneTime-" ++ natDecimal 2000) :=
  ⟨rfl, rfl, by decide,
    schedule_ids_distinct_across_milliseconds env1w env2w eventA eventA _ _ rfl rfl
      (by decide)⟩

/-- Claim C3: invoked with the event the setter registered (`\x7burl, body\x7d`
with both truthy), the worker performs exactly one `fetch` call — a POST to
the target whose request body is exactly `JSON.stringify` of the caller's
`target_body` — and on a 2xx response returns a 200 result. -/
theorem worker_posts_once_and_succeeds :
    ∀ (fetchImpl : FetchCall → Except String FetchResponse) (u b : Json)
      (r : FetchResponse),
      truthy u = true → truthy b = true →
      fetchImpl (mkFetchCall u b) = .ok r →
      200 ≤ r.status → r.status ≤ 299 →
      ∃ res, workerHandler fetchImpl (Json.obj [("url", u), ("body", b)]) =
          .ok ([mkFetchCall u b], res) ∧
        res.statusCode = 200 ∧
        (mkFetchCall u b).method = "POST" ∧
        (mkFetchCall u b).url = jsToString u ∧
        (mkFetchCall u b).body = Json.stringify b := by
  intro fetchImpl u b r htu htb hf h1 h2
  have hgu : (Json.obj [("url", u), ("body", b)]).getField "url" = some u := rfl
  have hgb : (Json.obj [("url", u), ("body", b)]).getField "body" = some b := rfl
  have hok : r.ok = true := by
    simp only [FetchResponse.ok, Bool.and_eq_true, decide_eq_true_eq]
    omega
  refine ⟨⟨200, Json.obj [("message", Json.str "Webhook called successfully"),
    ("statusCode", Json.num (Int.ofNat r.status)),
    ("responseBody", Json.str r.bodyText)]⟩, ?_, rfl, rfl, rfl, rfl⟩
  simp [workerHandler, hgu, hgb, htu, htb, hf, hok]

def fetch200 : FetchCall → Except String FetchResponse := fun _ => .ok ⟨200, "ok"⟩

def url0 : Json := .str "https://example.com/hook"

def body0 : Json := .obj [("a", .num 1)]

theorem worker_posts_once_and_succeeds_witness :
    truthy url0 = true ∧ truthy body0 = true ∧
    fetch200 (mkFetchCall url0 body0) = .ok ⟨200, "ok"⟩ ∧
    200 ≤ (200 : Nat) ∧ (200 : Nat) ≤ 299 ∧
    ∃ res, workerHandler fetch200 (Json.obj [("url", url0), ("body", body0)]) =
        .ok ([mkFetchCall url0 body0], res) ∧
      res.statusCode = 200 ∧
      (mkFetchCall url0 body0).method = "POST" ∧
      (mkFetchCall url0 body0).url = jsToString url0 ∧
      (mkFetchCall url0 body0).body = Json.stringify body0 :=
  ⟨rfl, rfl, rfl, by omega, by omega,
    worker_posts_once_and_succeeds fetch200 url0 body0 ⟨200, "ok"⟩ rfl rfl rfl
      (by decide) (by decide)⟩

/-- Claim C4: when the single `fetch` call ends in a transport error or any
non-2xx response, the worker returns a 500 result (the failure outcome) via
its `catch` — the conclusion holds for every response body text, and no
exception escapes the handler (`Except.ok`). -/
theorem worker_failure_yields_500 :
    ∀ (fetchImpl : FetchCall → Except String FetchResponse) (u b : Json),
      truthy u = true → truthy b = true →
      (∀ r, fetchImpl (mkFetchCall u b) = .ok r → r.ok = false) →
      ∃ body, workerHandler fetchImpl (Json.obj [("url", u), ("body", b)]) =
        .ok ([mkFetchCall u b], ⟨500, body⟩) := by
  intro fetchImpl u b htu htb hfail
  have hgu : (Json.obj [("url", u), ("body", b)]).getField "url" = some u := rfl
  have hgb : (Json.obj [("url", u), ("body", b)]).getField "body" = some b := rfl
  rcases hf : fetchImpl (mkFetchCall u b) with msg | r
  · exact ⟨.str ("Error calling webhook: " ++ msg),
      by simp [workerHandler, hgu, hgb, htu, htb, hf]⟩
  · have hok := hfail r hf
    exact ⟨.str ("Error calling webhook: Webhook call failed with status "
        ++ natDecimal r.status ++ " and body: " ++ r.bodyText),
      by simp [workerHandler, hgu, hgb, htu, htb, hf, hok]⟩

def fetchDown : FetchCall → Except String FetchResponse :=
  fun _ => .error "fetch failed: ECONNREFUSED"

theorem worker_failure_yields_500_witness :
    truthy url0 = true ∧ truthy body0 = true ∧
    (∀ r, fetchDown (mkFetchCall url0 body0) = .ok r → r.ok = false) ∧
    ∃ body, workerHandler fetchDown (Json.obj [("url", url0), ("body", body0)]) =
      .ok ([mkFetchCall url0 body0], ⟨500, body⟩) :=
  ⟨rfl, rfl, fun r h => by simp [fetchDown] at h,
    worker_failure_yields_500 fetchDown url0 body0 rfl rfl
      (fun r h => by simp [fetchDown] at h)⟩

/-- Claim C6: every `CreateScheduleCommand` the setter sends carries
`ActionAfterCompletion.DELETE` — the created schedule is always discarded
after completion, never retained. -/
theorem schedule_always_delete_after_completion :
    ∀ (env : SetterEnv) (event : SetterEvent) (run : SetterRun) (c : ScheduleCommand),
      handler env event = .ok run → run.sent = some c →
      c.actionAfterCompletion = "DELETE" := by
  intro env event run c h hs
  obtain ⟨u, b, t, rfl⟩ := handler_sent_eq env event run c h hs
  rfl

def cA : ScheduleCommand :=
  mkCommand env0 (.str "https://example.com/hook") (.obj [("a", .num 1)]) 1893456000000

def runA : SetterRun :=
  ⟨⟨200, successBody ⟨some cA.name,
      some ("arn:aws:scheduler:us-east-1:123456789012:schedule/default/" ++ cA.name)⟩⟩,
    some cA⟩

theorem schedule_always_delete_after_completion_witness :
    (handler env0 eventA = .ok runA ∧ runA.sent = some cA) ∧
      cA.actionAfterCompletion = "DELETE" :=
  ⟨⟨rfl, rfl⟩, schedule_always_delete_after_completion env0 eventA runA cA rfl rfl⟩

/-- Claim C10: when `JSON.parse(event.body)` throws (body absent or not a
string of valid JSON), the setter falls back to treating the event object
itself as the scheduling request: the invocation behaves exactly as if the
body had parsed to the event's own fields, so a body-parse failure alone
never produces an error response. -/
theorem body_parse_failure_falls_back :
    ∀ (env : SetterEnv) (fields : List (String × Json)),
      handler env ⟨none, fields⟩ = handler env ⟨some (Json.obj fields), fields⟩ :=
  fun _ _ => rfl

def eventBadTime : SetterEvent :=
  directEvent (.str "https://example.com/hook") (.obj [("a", .num 1)])
    (.str "tomorrow at noon")

def eventBadUrl : SetterEvent :=
  directEvent (.str "not a valid absolute url") (.obj [("a", .num 1)])
    (.str "2030-01-01T00:00:00Z")

/-- Counterexample to claim C2 as stated: an unparseable `fire_at`
(`parseISO` yields `Invalid Date`) is thrown inside the `try` block and
surfaces as 500, not 400; and a malformed-but-truthy `target_url` is not
rejected at all (the request completes with 200). So 400 does not occur
if-and-only-if the input is malformed. -/
theorem malformed_input_not_400 :
    runStatus (handler env0 eventBadTime) = some 500 ∧
    runStatus (handler env0 eventBadUrl) = some 200 :=
  ⟨rfl, rfl⟩

/-- Claim C2 (amended): the setter answers 400 exactly when one of the three
required parameters is missing or JS-falsy; a present-but-unparseable
`fire_at` instead surfaces as 500 (thrown inside `try`, caught by the
internal-error handler), and a malformed `target_url` is not validated. -/
theorem setter_400_iff_missing_params :
    ∀ (env : SetterEnv) (event : SetterEvent),
      requestOf event ≠ Json.null →
      ∃ run, handler env event = .ok run ∧
        (run.result.statusCode = 400 ↔ validParams (requestOf event) = false) ∧
        (∀ u b s, (requestOf event).getField "target_url" = some u →
          (requestOf event).getField "target_body" = some b →
          (requestOf event).getField "schedule_time_utc" = some s →
          truthy u = true → truthy b = true → truthy s = true →
          env.parseISO s = none → run.result.statusCode = 500) := by
  intro env event hne
  by_cases hv : validParams (requestOf event) = true
  · obtain ⟨u, b, s, hu, htu, hb, htb, hs, hts⟩ := validParams_elim _ hv
    refine ⟨tryBlock env u b s, handler_valid env event u b s hu hb hs htu htb hts, ?_, ?_⟩
    · rcases tryBlock_status env u b s with h | h <;> simp [h, hv]
    · intro u2 b2 s2 hu2 hb2 hs2 htu2 htb2 hts2 hp
      rw [hs] at hs2
      obtain rfl := Option.some.inj hs2
      rw [tryBlock_parse_fail env u b s hp]
      rfl
  · have hv2 : validParams (requestOf event) = false := by
      cases hval : validParams (requestOf event) with
      | false => rfl
      | true => exact absurd hval hv
    refine ⟨⟨missingParamsResult, none⟩, handler_invalid env event hne hv2,
      by simp [missingParamsResult, hv2], ?_⟩
    intro u b s hu hb hs htu htb hts hp
    exfalso
    have hvt : validParams (requestOf event) = true := by
      simp [validParams, hu, hb, hs, truthyO, htu, htb, hts]
    simp [hvt] at hv2

theorem setter_400_iff_missing_params_witness :
    (requestOf eventA ≠ Json.null) ∧
    ∃ run, handler env0 eventA = .ok run ∧
      (run.result.statusCode = 400 ↔ validParams (requestOf eventA) = false) ∧
      (∀ u b s, (requestOf eventA).getField "target_url" = some u →
        (requestOf eventA).getField "target_body" = some b →
        (requestOf eventA).getField "schedule_time_utc" = some s →
        truthy u = true → truthy b = true → truthy s = true →
        env0.parseISO s = none → run.result.statusCode = 500) :=
  ⟨by simp [requestOf, eventA, directEvent],
    setter_400_iff_missing_params env0 eventA (by simp [requestOf, eventA, directEvent])⟩

/-- Counterexample to claim C5 as stated: a request whose raw HTTP body is
the four bytes `null` parses to JSON `null`; destructuring it throws a
`TypeError` before the `try` block, so the handler produces no 200/400/500
response at all (the exception escapes to the Lambda runtime). -/
theorem null_body_crashes_handler :
    handler env0 ⟨some Json.null, []⟩ =
      .error "TypeError: Cannot destructure property of null" ∧
    runStatus (handler env0 ⟨some Json.null, []⟩) = none :=
  ⟨rfl, rfl⟩

/-- Claim C5 (amended): for every request whose body does not parse to JSON
`null`, the setter returns exactly one of 200, 400 and 500, and a 200 comes
with the success body carrying the identifier fields of the scheduler's
response (schedule name and ARN) for the command that was sent. -/
theorem setter_status_trichotomy :
    ∀ (env : SetterEnv) (event : SetterEvent),
      requestOf event ≠ Json.null →
      ∃ run, handler env event = .ok run ∧
        (run.result.statusCode = 200 ∨ run.result.statusCode = 400 ∨
          run.result.statusCode = 500) ∧
        (run.result.statusCode = 200 →
          ∃ c r, run.sent = some c ∧ env.send c = .ok r ∧
            run.result.body = successBody r) := by
  intro env event hne
  by_cases hv : validParams (requestOf event) = true
  · obtain ⟨u, b, s, hu, htu, hb, htb, hs, hts⟩ := validParams_elim _ hv
    refine ⟨tryBlock env u b s, handler_valid env event u b s hu hb hs htu htb hts, ?_, ?_⟩
    · rcases tryBlock_status env u b s with h | h
      · exact .inl h
      · exact .inr (.inr h)
    · intro h200
      obtain ⟨t, r, hp, hsend, heq⟩ := tryBlock_200 env u b s h200
      refine ⟨mkCommand env u b t, r, ?_, hsend, ?_⟩ <;> rw [heq]
  · have hv2 : validParams (requestOf event) = false := by
      cases hval : validParams (requestOf event) with
      | false => rfl
      | true => exact absurd hval hv
    refine ⟨⟨missingParamsResult, none⟩, handler_invalid env event hne hv2,
      .inr (.inl rfl), ?_⟩
    intro h200
    exact absurd h200 (by simp [missingParamsResult])

theorem setter_status_trichotomy_witness :
    (requestOf eventA ≠ Json.null) ∧
    ∃ run, handler env0 eventA = .ok run ∧
      (run.result.statusCode = 200 ∨ run.result.statusCode = 400 ∨
        run.result.statusCode = 500) ∧
      (run.result.statusCode = 200 →
        ∃ c r, run.sent = some c ∧ env0.send c = .ok r ∧
          run.result.body = successBody r) :=
  ⟨by simp [requestOf, eventA, directEvent],
    setter_status_trichotomy env0 eventA (by simp [requestOf, eventA, directEvent])⟩

/-- Claim C7: a `fire_at` that parses is accepted regardless of its relation
to the current clock — here stated with the parsed instant strictly in the
past of `Date.now()`: the setter still builds and sends the
`CreateScheduleCommand` (no past-time rejection, nothing silently dropped),
and does not answer 400. -/
theorem past_fire_time_accepted :
    ∀ (env : SetterEnv) (event : SetterEvent) (u b s : Json) (t : Int),
      (requestOf event).getField "target_url" = some u → truthy u = true →
      (requestOf event).getField "target_body" = some b → truthy b = true →
      (requestOf event).getField "schedule_time_utc" = some s → truthy s = true →
      env.parseISO s = some t →
      t < (env.now : Int) →
      envTruthy env.workerLambdaArn = true →
      envTruthy env.schedulerExecutionRoleArn = true →
      ∃ run, handler env event = .ok run ∧
        run.sent = some (mkCommand env u b t) ∧
        run.result.statusCode ≠ 400 ∧
        (mkCommand env u b t).scheduleExpression =
          "at(" ++ (env.formatISO t).take 19 ++ ")" := by
  intro env event u b s t hu htu hb htb hs hts hp hpast hw hr
  obtain ⟨hsent, hst⟩ := tryBlock_sent_of env u b s t hp hw hr
  exact ⟨tryBlock env u b s, handler_valid env event u b s hu hb hs htu htb hts,
    hsent, hst, rfl⟩

def envLate : SetterEnv := { env0 with now := 1893456000001 }

theorem past_fire_time_accepted_witness :
    ((requestOf eventA).getField "target_url" = some (.str "https://example.com/hook") ∧
      truthy (Json.str "https://example.com/hook") = true ∧
      (requestOf eventA).getField "target_body" = some (.obj [("a", .num 1)]) ∧
      truthy (Json.obj [("a", .num 1)]) = true ∧
      (requestOf eventA).getField "schedule_time_utc" =
        some (.str "2030-01-01T00:00:00Z") ∧
      truthy (Json.str "2030-01-01T00:00:00Z") = true ∧
      envLate.parseISO (.str "2030-01-01T00:00:00Z") = some 1893456000000 ∧
      (1893456000000 : Int) < (envLate.now : Int) ∧
      envTruthy envLate.workerLambdaArn = true ∧
      envTruthy envLate.schedulerExecutionRoleArn = true) ∧
    ∃ run, handler envLate eventA = .ok run ∧
      run.sent = some (mkCommand envLate (.str "https://example.com/hook")
        (.obj [("a", .num 1)]) 1893456000000) ∧
      run.result.statusCode ≠ 400 ∧
      (mkCommand envLate (.str "https://example.com/hook")
          (.obj [("a", .num 1)]) 1893456000000).scheduleExpression =
        "at(" ++ (envLate.formatISO 1893456000000).take 19 ++ ")" :=
  ⟨⟨rfl, rfl, rfl, rfl, rfl, rfl, rfl, by decide, rfl, rfl⟩,
    past_fire_time_accepted envLate eventA _ _ _ 1893456000000 rfl rfl rfl rfl rfl rfl
      rfl (by decide) rfl rfl⟩

def eventFalsyBody : SetterEvent :=
  directEvent (.str "https://example.com/hook") (.bool false)
    (.str "2030-01-01T00:00:00Z")

/-- Counterexample to claim C8 as stated: with `target_url` and `fire_at`
present and valid, a falsy `target_body` (here `false`) fails the
truthiness presence check and the request is rejected 400 as missing a
parameter — the body's value alone causes the rejection. -/
theorem falsy_target_body_rejected :
    handler env0 eventFalsyBody = .ok ⟨missingParamsResult, none⟩ ∧
    runStatus (handler env0 eventFalsyBody) = some 400 :=
  ⟨rfl, rfl⟩

/-- Claim C8 (amended): `target_body` is forwarded opaquely — any truthy
JSON value never by itself causes a 400, and the registered payload embeds
it verbatim — but the falsy JSON values (`null`, `false`, `0`, `""`) fail
the truthiness presence check and are rejected 400 as missing. -/
theorem target_body_truthy_opaque :
    ∀ (env : SetterEnv) (u b s : Json),
      truthy u = true → truthy s = true →
      (truthy b = false →
        handler env (directEvent u b s) = .ok ⟨missingParamsResult, none⟩) ∧
      (truthy b = true →
        ∃ run, handler env (directEvent u b s) = .ok run ∧
          run.result.statusCode ≠ 400 ∧
          ∀ c, run.sent = some c →
            c.targetInput = Json.stringify (Json.obj [("url", u), ("body", b)])) := by
  intro env u b s htu hts
  have hgu : (requestOf (directEvent u b s)).getField "target_url" = some u := rfl
  have hgb : (requestOf (directEvent u b s)).getField "target_body" = some b := rfl
  have hgs : (requestOf (directEvent u b s)).getField "schedule_time_utc" = some s := rfl
  have hvp : validParams (requestOf (directEvent u b s)) =
      (truthy u && truthy b && truthy s) := rfl
  constructor
  · intro hfb
    apply handler_invalid
    · simp [requestOf, directEvent]
    · simp [hvp, hfb]
  · intro htb
    refine ⟨tryBlock env u b s,
      handler_valid env (directEvent u b s) u b s hgu hgb hgs htu htb hts, ?_, ?_⟩
    · rcases tryBlock_status env u b s with h | h <;> simp [h]
    · intro c hc
      obtain ⟨t, hp, rfl⟩ := tryBlock_sent_eq env u b s c hc
      rfl

theorem target_body_truthy_opaque_witness :
    (truthy url0 = true ∧ truthy (Json.str "2030-01-01T00:00:00Z") = true) ∧
    ((truthy body0 = false →
        handler env0 (directEvent url0 body0 (.str "2030-01-01T00:00:00Z")) =
          .ok ⟨missingParamsResult, none⟩) ∧
      (truthy body0 = true →
        ∃ run, handler env0 (directEvent url0 body0 (.str "2030-01-01T00:00:00Z")) =
            .ok run ∧
          run.result.statusCode ≠ 400 ∧
          ∀ c, run.sent = some c →
            c.targetInput = Json.stringify (Json.obj [("url", url0), ("body", body0)]))) :=
  ⟨⟨rfl, rfl⟩, target_body_truthy_opaque env0 url0 body0 (.str "2030-01-01T00:00:00Z") rfl rfl⟩

/-- Claim C9: a missing (or empty) `SCHEDULER_GROUP_NAME` is silently
tolerated — every command actually sent carries the default group name
`default` — while a missing/empty `WORKER_LAMBDA_ARN`, or a missing/empty
`SCHEDULER_EXECUTION_ROLE_ARN` with the worker ARN present, aborts the
request with a 500 before anything is sent. -/
theorem env_var_handling :
    ∀ (env : SetterEnv) (event : SetterEvent),
      validParams (requestOf event) = true →
      ∃ run, handler env event = .ok run ∧
        ((env.schedulerGroupName = none ∨ env.schedulerGroupName = some "") →
          ∀ c, run.sent = some c → c.groupName = "default") ∧
        ((env.workerLambdaArn = none ∨ env.workerLambdaArn = some "") →
          run.sent = none ∧ run.result.statusCode = 500) ∧
        (envTruthy env.workerLambdaArn = true →
          (env.schedulerExecutionRoleArn = none ∨ env.schedulerExecutionRoleArn = some "") →
          run.sent = none ∧ run.result.statusCode = 500) := by
  intro env event hv
  obtain ⟨u, b, s, hu, htu, hb, htb, hs, hts⟩ := validParams_elim _ hv
  refine ⟨tryBlock env u b s, handler_valid env event u b s hu hb hs htu htb hts,
    ?_, ?_, ?_⟩
  · intro hg c hc
    obtain ⟨t, hp, rfl⟩ := tryBlock_sent_eq env u b s c hc
    show envOrDefault env.schedulerGroupName "default" = "default"
    rcases hg with hg | hg <;> rw [hg] <;> rfl
  · intro hwf
    have hw : envTruthy env.workerLambdaArn = false := by
      rcases hwf with h | h <;> rw [h] <;> rfl
    obtain ⟨h5, hn⟩ := tryBlock_worker_missing env u b s hw
    exact ⟨hn, h5⟩
  · intro hw hrf
    have hr : envTruthy env.schedulerExecutionRoleArn = false := by
      rcases hrf with h | h <;> rw [h] <;> rfl
    obtain ⟨h5, hn⟩ := tryBlock_role_missing env u b s hw hr
    exact ⟨hn, h5⟩

def envNoGroup : SetterEnv := { env0 with schedulerGroupName := none }

theorem env_var_handling_witness :
    validParams (requestOf eventA) = true ∧
    ∃ run, handler envNoGroup eventA = .ok run ∧
      ((envNoGroup.schedulerGroupName = none ∨ envNoGroup.schedulerGroupName = some "") →
        ∀ c, run.sent = some c → c.groupName = "default") ∧
      ((envNoGroup.workerLambdaArn = none ∨ envNoGroup.workerLambdaArn = some "") →
        run.sent = none ∧ run.result.statusCode = 500) ∧
      (envTruthy envNoGroup.workerLambdaArn = true →
        (envNoGroup.schedulerExecutionRoleArn = none ∨
          envNoGroup.schedulerExecutionRoleArn = some "") →
        run.sent = none ∧ run.result.statusCode = 500) :=
  ⟨rfl, env_var_handling envNoGroup eventA rfl⟩

end SC
